import Mathlib

/-!
Verification development for the LTC (Linear Timecode) bitstream decoding
engine of `ltc_to_smpte.py`.

The decoding engine is pure sequence processing, so it is embedded shallowly:

* bit sequences become `List Nat` (each element 0 or 1 in well-formed input);
* audio samples become `List ℚ` — the floating-point operations the decoder
  performs on them (division by a power of two, sign tests, comparison with
  zero) are exact on the inputs the theorems below consider, so the rational
  model agrees with the IEEE semantics there;
* Python slicing `l[a:b]` becomes `pySlice`;
* a Python function that may raise becomes a Lean function into `Except Unit`.

Every definition mirrors the corresponding Python function line by line;
definitions whose doc comment starts with `Modelled from the spec:` follow
the specification's words instead (used only to compare spec-described
behaviour, such as the §4.4 encoder, against the code).
-/

namespace LtcToSmpte

/-- Python slice `l[a:b]` for nonnegative indices `a ≤ b`
(the only form the decoder uses). -/
def pySlice (l : List α) (a b : Nat) : List α := (l.drop a).take (b - a)

/-- `LTCDecoder._bcd_decode`: if fewer than 4 symbols are given, return 0;
otherwise return `Σ bits[i] * 2^(3-i)` over the first four symbols. -/
def _bcd_decode (bits : List Nat) : Nat :=
  if bits.length < 4 then 0
  else ((bits.take 4).enum.map (fun p => p.2 * 2 ^ (3 - p.1))).sum

/-- The frames field composed by `_decode_ltc_frame`:
`frames_tens * 10 + frames_units` from bit slices `[4:8]` and `[0:4]`. -/
def framesField (bits : List Nat) : Nat :=
  _bcd_decode (pySlice bits 4 8) * 10 + _bcd_decode (pySlice bits 0 4)

/-- The seconds field composed by `_decode_ltc_frame` from slices
`[14:18]` and `[10:14]`. -/
def secondsField (bits : List Nat) : Nat :=
  _bcd_decode (pySlice bits 14 18) * 10 + _bcd_decode (pySlice bits 10 14)

/-- The minutes field composed by `_decode_ltc_frame` from slices
`[24:28]` and `[20:24]`. -/
def minutesField (bits : List Nat) : Nat :=
  _bcd_decode (pySlice bits 24 28) * 10 + _bcd_decode (pySlice bits 20 24)

/-- The hours field composed by `_decode_ltc_frame` from slices
`[34:36]` and `[30:34]`. -/
def hoursField (bits : List Nat) : Nat :=
  _bcd_decode (pySlice bits 34 36) * 10 + _bcd_decode (pySlice bits 30 34)

/-- `LTCDecoder._decode_ltc_frame`: decode an 80-bit LTC frame into the tuple
`(hours, minutes, seconds, frames, drop_frame)`.  Inputs shorter than 80
symbols, and frames whose composed fields fall outside
`hours ≤ 23 ∧ minutes ≤ 59 ∧ seconds ≤ 59 ∧ frames ≤ 59`, yield the all-zero
sentinel.  The Python body's `try` block contains only list slicing and
arithmetic on a list already checked to have length ≥ 80, which cannot raise,
so the `except` path adds no behaviour to the embedding. -/
def _decode_ltc_frame (bits : List Nat) : Nat × Nat × Nat × Nat × Nat :=
  if bits.length < 80 then (0, 0, 0, 0, 0)
  else
    let frames := framesField bits
    let seconds := secondsField bits
    let minutes := minutesField bits
    let hours := hoursField bits
    let drop_frame := bits.getD 8 0
    if hours > 23 ∨ minutes > 59 ∨ seconds > 59 ∨ frames > 59 then (0, 0, 0, 0, 0)
    else (hours, minutes, seconds, frames, drop_frame)

/-- Modelled from the spec: §4.3's digit encoding convention
`value = Σ bit[i] * 2^(3-i)` inverted, i.e. the 4-bit group whose BCD decode
is `d` (for `d ≤ 15`): `bit[i] = d / 2^(3-i) % 2`. -/
def specEncodeDigit (d : Nat) : List Nat :=
  [d / 8 % 2, d / 4 % 2, d / 2 % 2, d % 2]

/-- Modelled from the spec: the §4.4 field table's encoder.  Units and tens
digits are placed as BCD groups at bit offsets 0–3/4–7 (frames), 10–13/14–17
(seconds), 20–23/24–27 (minutes), 30–33 (hours units), and the hours tens
value (0–2 for valid hours) is the 2-bit group at bits 34–35, written with
the same big-endian-weight convention as the 4-bit groups.  Flag, user and
sync bits are left 0 (sync validation is advisory per §4.4). -/
def specEncodeFrame (h m s f : Nat) : List Nat :=
  specEncodeDigit (f % 10) ++ specEncodeDigit (f / 10) ++
  [0, 0] ++
  specEncodeDigit (s % 10) ++ specEncodeDigit (s / 10) ++
  [0, 0] ++
  specEncodeDigit (m % 10) ++ specEncodeDigit (m / 10) ++
  [0, 0] ++
  specEncodeDigit (h % 10) ++
  [h / 10 / 2 % 2, h / 10 % 2] ++
  List.replicate 28 0 ++
  List.replicate 16 0

/-- `LTCDecoder.__init__`'s `self.bit_length = sample_rate // 1920`. -/
def bit_length (sample_rate : Nat) : Nat := sample_rate / 1920

/-- `np.sign` on a (real-valued) sample. -/
def npSign (x : ℚ) : Int := if 0 < x then 1 else if x < 0 then -1 else 0

/-- `np.diff`: successive differences of a sequence. -/
def npDiff (l : List Int) : List Int := (l.zip l.tail).map (fun p => p.2 - p.1)

/-- `len(np.where(np.diff(np.sign(bit_audio)))[0])`: the number of positions
at which the sign of the signal differs between consecutive samples. -/
def signChangeCount (l : List ℚ) : Nat :=
  ((npDiff (l.map npSign)).filter (fun d => d ≠ 0)).length

/-- One iteration of the window loop of `_extract_bits_from_audio`:
`start = i*samples_per_bit`, `end = min((i+1)*samples_per_bit, len(audio))`;
a window spanning fewer than 2 samples yields symbol 0, otherwise the symbol
is 1 exactly when the window's sign-change count is positive.
(When `start > len(audio)` the Python difference `end - start` is negative,
hence `< 2`, matching truncated subtraction's 0 here.) -/
def extractBit (audio : List ℚ) (samples_per_bit : Nat) (i : Nat) : Nat :=
  let start := i * samples_per_bit
  let stop := min ((i + 1) * samples_per_bit) audio.length
  if stop - start < 2 then 0
  else
    let bit_audio := pySlice audio start stop
    if 0 < signChangeCount bit_audio then 1 else 0

/-- `LTCDecoder._extract_bits_from_audio`: for `i in range(80)`, emit one
symbol per fixed-width window of `self.bit_length` samples. -/
def _extract_bits_from_audio (audio : List ℚ) (sample_rate : Nat) : List Nat :=
  (List.range 80).map (extractBit audio (bit_length sample_rate))

/-- The window of samples examined for symbol `i`,
`audio[i*spb : min((i+1)*spb, len(audio))]`. -/
def windowOf (audio : List ℚ) (samples_per_bit : Nat) (i : Nat) : List ℚ :=
  pySlice audio (i * samples_per_bit) (min ((i + 1) * samples_per_bit) audio.length)

/-- `LTCDecoder._decode_bits` specialised to the `int16` dtype branch (the
dtype the WAV reader produces): normalise by 32768, return the sentinel on an
empty buffer, rescale by the peak magnitude unless it is 0, return the
sentinel when fewer than `sample_rate // 24` samples are available, then
extract 80 bits from the first frame's samples and decode them.  (`np.max` of
the absolute values is the fold of `max` over them, with base 0 — equal to
numpy's on the nonempty, nonnegative lists it is applied to here.) -/
def _decode_bits (audio_data : List Int) (sample_rate : Nat) :
    Nat × Nat × Nat × Nat × Nat :=
  let audio_normalized : List ℚ := audio_data.map (fun x : Int => (x : ℚ) / 32768)
  if audio_normalized.length = 0 then (0, 0, 0, 0, 0)
  else
    let max_val : ℚ := ((audio_normalized.map (fun x => |x|)).foldr max 0)
    let audio_normalized :=
      if 0 < max_val then audio_normalized.map (fun x => x / max_val)
      else audio_normalized
    let samples_per_frame := sample_rate / 24
    if audio_normalized.length < samples_per_frame then (0, 0, 0, 0, 0)
    else
      let frame_audio := audio_normalized.take samples_per_frame
      let bits := _extract_bits_from_audio frame_audio sample_rate
      if bits.length < 80 then (0, 0, 0, 0, 0)
      else _decode_ltc_frame (bits.take 80)

/-- `SMPTEWriter.format_timecode`'s `f"{n:02d}"` for the nonnegative values
the decoder produces. -/
def pad2 (n : Nat) : String := if n < 10 then "0" ++ toString n else toString n

/-- `SMPTEWriter.format_timecode`: render four fields as `HH:MM:SS:FF`. -/
def format_timecode (hours minutes seconds frames : Nat) : String :=
  pad2 hours ++ ":" ++ pad2 minutes ++ ":" ++ pad2 seconds ++ ":" ++ pad2 frames

/-- A timecode tuple as produced by either decode path. -/
abbrev Timecode := Nat × Nat × Nat × Nat × Nat

/-- The outcome of running a Python callee that may raise: `.ok` is a normal
return, `.error ()` is a raised exception. -/
abbrev PyOutcome (α : Type) := Except Unit α

/-- How `decode_ltc`'s final `try` renders the internal decoder's outcome:
a normal return is passed through, a raised exception becomes `None`. -/
def internalResult (internal : PyOutcome Timecode) : Option Timecode :=
  match internal with
  | .ok r => some r
  | .error _ => none

/-- `LTCDecoder.decode_ltc`, with the two callees' outcomes as parameters
(they touch a subprocess and the sample buffer, external to this embedding):
when a `wav_file` handle is present, try `_decode_with_ltcdump` first and
return its result if it is truthy; on `None` or on an exception fall through;
then return `_decode_bits`'s result, or `None` if it raises. -/
def decode_ltc (wav_file : Option Unit)
    (ltcdump : Unit → PyOutcome (Option Timecode))
    (internal : PyOutcome Timecode) : Option Timecode :=
  match wav_file with
  | none => internalResult internal
  | some w =>
    match ltcdump w with
    | .ok (some r) => some r
    | .ok none => internalResult internal
    | .error _ => internalResult internal

/-- Python `str.split(sep)`: split at every character satisfying `p`, keeping
empty pieces (so `"a::b".split(":") == ["a", "", "b"]`). -/
def splitChars (p : Char → Bool) : List Char → List (List Char)
  | [] => [[]]
  | c :: rest =>
    match splitChars p rest with
    | [] => [[c]]
    | piece :: pieces =>
      if p c then [] :: piece :: pieces else (c :: piece) :: pieces

/-- Python `str.split()` (no separator): split on whitespace and drop the
empty pieces. -/
def pySplitWhitespace (line : List Char) : List (List Char) :=
  (splitChars (fun c => c.isWhitespace) line).filter (fun piece => ¬ piece.isEmpty)

/-- The numeric value of a decimal digit character, if it is one. -/
def digitVal (c : Char) : Option Nat :=
  if '0' ≤ c ∧ c ≤ '9' then some (c.toNat - Char.toNat '0') else none

/-- The value of a nonempty all-digit character sequence, else `none`. -/
def parseDigits (cs : List Char) : Option Nat :=
  if cs.isEmpty then none
  else
    cs.foldl
      (fun acc c =>
        match acc, digitVal c with
        | some n, some d => some (n * 10 + d)
        | _, _ => none)
      (some 0)

/-- Python `int(str)` on a whitespace-free token: an optional sign followed
by at least one digit; anything else raises `ValueError`, i.e. `none`. -/
def pyInt : List Char → Option Int
  | '-' :: rest => (parseDigits rest).map (fun n => -(n : Int))
  | '+' :: rest => (parseDigits rest).map (fun n => (n : Int))
  | cs => (parseDigits cs).map (fun n => (n : Int))

/-- Python `needle in haystack` on strings: substring containment. -/
def containsChars (needle : List Char) : List Char → Bool
  | [] => needle.isEmpty
  | c :: rest => needle.isPrefixOf (c :: rest) || containsChars needle rest

/-- The line filter of `_decode_with_ltcdump`:
`':' in line and 'Timecode' not in line and '#' not in line`. -/
def lineCandidate (line : List Char) : Bool :=
  line.contains ':' && !(containsChars (("Timecode").data) line) &&
    !(line.contains '#')

/-- The line-scanning loop of `LTCDecoder._decode_with_ltcdump` over the
tool's stdout lines.  A line failing the candidate filter, or splitting into
no whitespace-separated parts, is skipped; otherwise `parts[1]` is read —
**outside** the inner `try`, so on a single-part line the `IndexError`
(`.error ()` here) propagates and ends the scan.  A second part that does not
split on `':'` into exactly four integer fields is skipped by the inner
`except (ValueError, IndexError)`.  A fully parsed timecode returns
`(hours, minutes, seconds, frames, 0)`; exhausting the lines returns `None`. -/
def scanLtcdumpLines :
    List (List Char) → PyOutcome (Option (Int × Int × Int × Int × Int))
  | [] => .ok none
  | line :: rest =>
    if lineCandidate line then
      let parts := pySplitWhitespace line
      if parts.isEmpty then scanLtcdumpLines rest
      else
        match parts.get? 1 with
        | none => .error ()
        | some timecode =>
          match splitChars (fun c => c = ':') timecode with
          | [h, m, s, f] =>
            match pyInt h, pyInt m, pyInt s, pyInt f with
            | some hh, some mm, some ss, some ff => .ok (some (hh, mm, ss, ff, 0))
            | _, _, _, _ => scanLtcdumpLines rest
          | _ => scanLtcdumpLines rest
    else scanLtcdumpLines rest

/-- The parsing part of `_decode_with_ltcdump`: scan
`result.stdout.split('\n')`. -/
def parseLtcdumpOutput (stdout : List Char) :
    PyOutcome (Option (Int × Int × Int × Int × Int)) :=
  scanLtcdumpLines (splitChars (fun c => c = '\n') stdout)

/-- C1: encode-then-decode is NOT the identity on the valid ranges: the
§4.4-encoded frame for 10:00:00:00 (hours tens = 1 in bits 34–35) decodes to
the all-zero tuple, because `_decode_ltc_frame` computes the hours tens digit
by calling `_bcd_decode` on the 2-element slice `bits[34:36]`, whose
short-input branch returns 0.  Hours 0–9 round-trip; hours ≥ 10 do not. -/
theorem c1_encode_decode_loses_hours_tens :
    _decode_ltc_frame (specEncodeFrame 10 0 0 0) = (0, 0, 0, 0, 0) ∧
    _decode_ltc_frame (specEncodeFrame 10 0 0 0) ≠ (10, 0, 0, 0, 0) := by
  decide

/-- C2: the hours field is NOT `tens*10 + units` with tens read from bits
34–35: whatever nonzero value bits 34–35 hold (all three nonzero patterns
shown, with hours-units bits 30–33 zero), the decoded hours field is 0, not
10·tens, because the hours-tens slice has only 2 elements and `_bcd_decode`
returns 0 for inputs shorter than 4. -/
theorem c2_hours_tens_always_zero :
    (_decode_ltc_frame (List.replicate 34 0 ++ [0, 1] ++ List.replicate 44 0)).1 = 0 ∧
    (_decode_ltc_frame (List.replicate 34 0 ++ [1, 0] ++ List.replicate 44 0)).1 = 0 ∧
    (_decode_ltc_frame (List.replicate 34 0 ++ [1, 1] ++ List.replicate 44 0)).1 = 0 := by
  decide

/-- C3: the short-input branch of `_bcd_decode` IS reachable from the frame
decoder: on every 80-bit frame the hours-tens call site passes the slice
`bits[34:36]`, which has exactly 2 < 4 symbols, so `_bcd_decode` takes its
short-input branch and returns 0 there. -/
theorem c3_bcd_called_with_short_slice (bits : List Nat) (h : bits.length = 80) :
    (pySlice bits 34 36).length = 2 ∧ (pySlice bits 34 36).length < 4 ∧
    _bcd_decode (pySlice bits 34 36) = 0 := by
  have hl : (pySlice bits 34 36).length = 2 := by
    simp [pySlice, List.length_take, List.length_drop, h]
  exact ⟨hl, by omega, by simp [_bcd_decode, hl]⟩

/-- Witness for C3 at the all-zero 80-bit frame. -/
theorem c3_witness :
    (pySlice (List.replicate 80 0) 34 36).length = 2 ∧
    (pySlice (List.replicate 80 0) 34 36).length < 4 ∧
    _bcd_decode (pySlice (List.replicate 80 0) 34 36) = 0 :=
  c3_bcd_called_with_short_slice (List.replicate 80 0) (by decide)

/-- C9: on a list of exactly 4 binary symbols, `_bcd_decode` returns
`Σ bit[i] * 2^(3-i)`, which lies in `[0, 15]`. -/
theorem c9_bcd_decode_four_bits (b0 b1 b2 b3 : Nat)
    (h0 : b0 ≤ 1) (h1 : b1 ≤ 1) (h2 : b2 ≤ 1) (h3 : b3 ≤ 1) :
    _bcd_decode [b0, b1, b2, b3] =
      b0 * 2 ^ 3 + b1 * 2 ^ 2 + b2 * 2 ^ 1 + b3 * 2 ^ 0 ∧
    _bcd_decode [b0, b1, b2, b3] ≤ 15 := by
  constructor
  · simp [_bcd_decode, List.enum, List.enumFrom]
    ring
  · interval_cases b0 <;> interval_cases b1 <;> interval_cases b2 <;>
      interval_cases b3 <;> decide

/-- Witness for C9 at the bit pattern 1011 (value 11). -/
theorem c9_witness :
    _bcd_decode [1, 0, 1, 1] = 1 * 2 ^ 3 + 0 * 2 ^ 2 + 1 * 2 ^ 1 + 1 * 2 ^ 0 ∧
    _bcd_decode [1, 0, 1, 1] ≤ 15 :=
  c9_bcd_decode_four_bits 1 0 1 1 (by decide) (by decide) (by decide) (by decide)

/-- C7: a malformed line DOES abort the scan: a line containing a colon but
only a single whitespace-separated token makes `parts[1]` raise `IndexError`
(outside the inner `try`), ending the scan before the later well-formed line
`a 01:23:45:12` is reached — which, on its own, parses fine. -/
theorem c7_single_token_line_aborts_scan :
    parseLtcdumpOutput (("00:00:00:01\na 01:23:45:12").data) = .error () ∧
    parseLtcdumpOutput (("a 01:23:45:12").data) = .ok (some (1, 23, 45, 12, 0)) :=
  ⟨rfl, rfl⟩

/-- C5: the selection policy of `decode_ltc`: whenever the authoritative
`ltcdump` path fails (raises, or returns `None` — covering tool absent,
non-zero exit, timeout and unparsable output), the result is exactly the
internal path's result; and if, in that situation, the internal decoder also
raises, the call returns `None` instead of propagating.  The embedding's
total return type records that `decode_ltc` itself never raises. -/
theorem c5_selector_falls_back (wav_file : Option Unit)
    (ltcdump : Unit → PyOutcome (Option Timecode)) (internal : PyOutcome Timecode) :
    ((∀ w ∈ wav_file, ltcdump w = .error () ∨ ltcdump w = .ok none) →
      decode_ltc wav_file ltcdump internal = internalResult internal) ∧
    ((∀ w ∈ wav_file, ltcdump w = .error () ∨ ltcdump w = .ok none) →
      internal = .error () → decode_ltc wav_file ltcdump internal = none) := by
  constructor
  · intro hfail
    cases wav_file with
    | none => rfl
    | some w =>
      rcases hfail w rfl with h | h <;> simp [decode_ltc, h]
  · intro hfail hint
    cases wav_file with
    | none => simp [decode_ltc, hint, internalResult]
    | some w =>
      rcases hfail w rfl with h | h <;> simp [decode_ltc, h, hint, internalResult]

/-- Witness for C5: with a wav handle present, the tool raising, and the
internal decoder returning 01:02:03:04, the selector returns the internal
result. -/
theorem c5_witness :
    decode_ltc (some ()) (fun _ => .error ()) (.ok ((1, 2, 3, 4, 0) : Timecode)) =
      some (1, 2, 3, 4, 0) := by
  have h := (c5_selector_falls_back (some ()) (fun _ => .error ())
    (.ok ((1, 2, 3, 4, 0) : Timecode))).1 (fun w _ => Or.inl rfl)
  simpa [internalResult] using h

/-- C4: `_decode_ltc_frame` returns the all-zero sentinel both on inputs
shorter than 80 symbols and whenever any composed field is out of range
(hours > 23, minutes > 59, seconds > 59 or frames > 59); no partially valid
tuple is ever returned. -/
theorem c4_sentinel_on_short_or_out_of_range (bits : List Nat) :
    (bits.length < 80 → _decode_ltc_frame bits = (0, 0, 0, 0, 0)) ∧
    (hoursField bits > 23 ∨ minutesField bits > 59 ∨ secondsField bits > 59 ∨
        framesField bits > 59 →
      _decode_ltc_frame bits = (0, 0, 0, 0, 0)) := by
  constructor
  · intro h
    simp [_decode_ltc_frame, h]
  · intro h
    by_cases hl : bits.length < 80
    · simp [_decode_ltc_frame, hl]
    · simp [_decode_ltc_frame, hl, h]

/-- Witness for C4: the empty input and an 80-bit frame whose minutes field
composes to 150 both yield the sentinel. -/
theorem c4_witness :
    _decode_ltc_frame [] = (0, 0, 0, 0, 0) ∧
    _decode_ltc_frame (List.replicate 24 0 ++ [1, 1, 1, 1] ++ List.replicate 52 0) =
      (0, 0, 0, 0, 0) :=
  ⟨(c4_sentinel_on_short_or_out_of_range []).1 (by decide),
   (c4_sentinel_on_short_or_out_of_range
      (List.replicate 24 0 ++ [1, 1, 1, 1] ++ List.replicate 52 0)).2
     (by decide)⟩

/-- C10: for every signal and sample rate, `_extract_bits_from_audio`
returns exactly 80 symbols, each 0 or 1; in particular its output is never
shorter than 80, so the fewer-than-80-bits guard in `_decode_bits` cannot
fire. -/
theorem c10_extractor_yields_80_binary_symbols (audio : List ℚ) (sample_rate : Nat) :
    (_extract_bits_from_audio audio sample_rate).length = 80 ∧
    (∀ b ∈ _extract_bits_from_audio audio sample_rate, b = 0 ∨ b = 1) ∧
    ¬ (_extract_bits_from_audio audio sample_rate).length < 80 := by
  refine ⟨by simp [_extract_bits_from_audio], ?_, by simp [_extract_bits_from_audio]⟩
  intro b hb
  simp only [_extract_bits_from_audio, List.mem_map, List.mem_range] at hb
  obtain ⟨i, -, rfl⟩ := hb
  unfold extractBit
  dsimp only
  split
  · exact Or.inl rfl
  · split
    · exact Or.inr rfl
    · exact Or.inl rfl

/-- Witness for C10 at the empty signal: the membership hypothesis of the
second conjunct is discharged at symbol 0, which the extractor does emit. -/
theorem c10_witness :
    (_extract_bits_from_audio [] 48000).length = 80 ∧ ((0 : Nat) = 0 ∨ (0 : Nat) = 1) :=
  ⟨(c10_extractor_yields_80_binary_symbols [] 48000).1,
   (c10_extractor_yields_80_binary_symbols [] 48000).2.1 0 (by decide)⟩

theorem windowOf_length (audio : List ℚ) (spb i : Nat) :
    (windowOf audio spb i).length = min ((i + 1) * spb) audio.length - i * spb := by
  simp only [windowOf, pySlice, List.length_take, List.length_drop]
  omega

theorem extractBit_eq (audio : List ℚ) (spb i : Nat) :
    extractBit audio spb i =
      if (windowOf audio spb i).length < 2 then 0
      else if 0 < signChangeCount (windowOf audio spb i) then 1 else 0 := by
  unfold extractBit
  dsimp only
  rw [windowOf_length]
  rfl

theorem signChangeCount_pos_iff (w : List ℚ) :
    0 < signChangeCount w ↔ ∃ p ∈ w.zip w.tail, npSign p.1 ≠ npSign p.2 := by
  unfold signChangeCount npDiff
  rw [← List.countP_eq_length_filter, ← List.map_tail, List.zip_map, List.map_map,
    List.countP_map, List.countP_pos_iff]
  constructor
  · rintro ⟨⟨a, b⟩, hp, hd⟩
    refine ⟨(a, b), hp, fun he => ?_⟩
    simp only [Function.comp, Prod.map, decide_eq_true_eq] at hd
    exact hd (by rw [he, sub_self])
  · rintro ⟨⟨a, b⟩, hp, hd⟩
    refine ⟨(a, b), hp, ?_⟩
    simp only [Function.comp, Prod.map, decide_eq_true_eq]
    exact sub_ne_zero.mpr (Ne.symm hd)

theorem extract_getD (audio : List ℚ) (sample_rate i : Nat) (hi : i < 80) :
    (_extract_bits_from_audio audio sample_rate).getD i 2 =
      extractBit audio (bit_length sample_rate) i := by
  simp [_extract_bits_from_audio, List.getD_eq_getElem?_getD, List.getElem?_map,
    List.getElem?_range, hi]

/-- C6: for each of the 80 windows of `sample_rate // 1920` samples, the
extractor emits 0 when the window holds fewer than 2 samples; otherwise it
emits 1 exactly when the sign of the signal changes between some pair of
consecutive samples of the window, and 0 when no consecutive signs differ
(in particular on an all-zero window, whose signs are all 0). -/
theorem c6_window_symbol_characterisation (audio : List ℚ) (sample_rate i : Nat)
    (hi : i < 80) :
    ((windowOf audio (bit_length sample_rate) i).length < 2 →
      (_extract_bits_from_audio audio sample_rate).getD i 2 = 0) ∧
    (2 ≤ (windowOf audio (bit_length sample_rate) i).length →
      ((_extract_bits_from_audio audio sample_rate).getD i 2 = 1 ↔
        ∃ p ∈ (windowOf audio (bit_length sample_rate) i).zip
            (windowOf audio (bit_length sample_rate) i).tail,
          npSign p.1 ≠ npSign p.2) ∧
      ((∀ p ∈ (windowOf audio (bit_length sample_rate) i).zip
            (windowOf audio (bit_length sample_rate) i).tail,
          npSign p.1 = npSign p.2) →
        (_extract_bits_from_audio audio sample_rate).getD i 2 = 0)) := by
  rw [extract_getD audio sample_rate i hi, extractBit_eq]
  constructor
  · intro h
    rw [if_pos h]
  · intro h
    rw [if_neg (by omega)]
    by_cases hc : 0 < signChangeCount (windowOf audio (bit_length sample_rate) i)
    · obtain ⟨p, hp, hne⟩ := (signChangeCount_pos_iff _).mp hc
      rw [if_pos hc]
      exact ⟨⟨fun _ => ⟨p, hp, hne⟩, fun _ => rfl⟩,
        fun hall => absurd (hall p hp) hne⟩
    · rw [if_neg hc]
      refine ⟨⟨fun h01 => absurd h01 (by decide), fun hex => ?_⟩, fun _ => rfl⟩
      exact absurd ((signChangeCount_pos_iff _).mpr hex) hc

/-- Witness for C6 at the two-sample signal `[1, -1]` (one sign flip) and
window 0 at 48 kHz: the window has 2 samples and the emitted symbol is 1. -/
theorem c6_witness :
    (_extract_bits_from_audio [(1 : ℚ), -1] 48000).getD 0 2 = 1 :=
  ((c6_window_symbol_characterisation [(1 : ℚ), -1] 48000 0 (by decide)).2
    (by decide)).1.mpr ⟨(1, -1), by decide, by decide⟩

theorem npDiff_replicate (a : Int) : ∀ k, npDiff (List.replicate k a) = List.replicate (k - 1) 0
  | 0 => rfl
  | 1 => rfl
  | k + 2 => by
    have ih := npDiff_replicate a (k + 1)
    simp only [npDiff, List.replicate_succ, List.tail_cons, List.zip_cons_cons,
      List.map_cons, sub_self] at ih ⊢
    rw [ih]
    simp [List.replicate_succ]

theorem signChangeCount_replicate_zero (k : Nat) :
    signChangeCount (List.replicate k (0 : ℚ)) = 0 := by
  have hs : (List.replicate k (0 : ℚ)).map npSign = List.replicate k 0 := by
    simp [List.map_replicate, npSign]
  simp [signChangeCount, hs, npDiff_replicate, List.filter_replicate]

theorem windowOf_replicate_zero (m spb i : Nat) :
    ∃ k, windowOf (List.replicate m (0 : ℚ)) spb i = List.replicate k 0 := by
  refine ⟨min (min ((i + 1) * spb) m - i * spb) (m - i * spb), ?_⟩
  simp [windowOf, pySlice, List.drop_replicate, List.take_replicate]

theorem extractBit_replicate_zero (m spb i : Nat) :
    extractBit (List.replicate m (0 : ℚ)) spb i = 0 := by
  obtain ⟨k, hk⟩ := windowOf_replicate_zero m spb i
  rw [extractBit_eq, hk]
  simp [signChangeCount_replicate_zero]

theorem extract_bits_replicate_zero (m sample_rate : Nat) :
    _extract_bits_from_audio (List.replicate m (0 : ℚ)) sample_rate =
      List.replicate 80 0 := by
  rw [List.eq_replicate_iff]
  refine ⟨by simp [_extract_bits_from_audio], ?_⟩
  intro b hb
  simp only [_extract_bits_from_audio, List.mem_map, List.mem_range] at hb
  obtain ⟨i, -, rfl⟩ := hb
  exact extractBit_replicate_zero m (bit_length sample_rate) i

theorem foldr_max_abs_replicate_zero (n : Nat) :
    (((List.replicate n (0 : ℚ)).map (fun x => |x|)).foldr max 0) = 0 := by
  induction n with
  | zero => rfl
  | succ k ih =>
    rw [List.replicate_succ]
    simp only [List.map_cons, List.foldr_cons, ih, abs_zero]
    simp

/-- C8: an all-zero int16 buffer of any length at 48 kHz decodes to the
sentinel `(0, 0, 0, 0, 0)` — via the empty-input guard, the too-short guard,
or (for a full frame) the all-zero bit sequence whose BCD fields are all 0
and in range — and `format_timecode` renders `(0, 0, 0, 0)` as
`"00:00:00:00"`. -/
theorem c8_silent_buffer_decodes_to_sentinel (n : Nat) :
    _decode_bits (List.replicate n 0) 48000 = (0, 0, 0, 0, 0) ∧
    format_timecode 0 0 0 0 = "00:00:00:00" := by
  refine ⟨?_, by decide⟩
  unfold _decode_bits
  have hmap : (List.replicate n (0 : Int)).map (fun x : Int => (x : ℚ) / 32768) =
      List.replicate n (0 : ℚ) := by
    rw [List.map_replicate]
    norm_num
  rw [hmap]
  dsimp only
  by_cases h0 : (List.replicate n (0 : ℚ)).length = 0
  · rw [if_pos h0]
  · rw [if_neg h0, foldr_max_abs_replicate_zero, if_neg (lt_irrefl 0)]
    by_cases hn : (List.replicate n (0 : ℚ)).length < 48000 / 24
    · rw [if_pos hn]
    · rw [if_neg hn, List.take_replicate, extract_bits_replicate_zero]
      rw [if_neg (by decide), List.take_replicate]
      decide

end LtcToSmpte
